/-
  Verification of the interruptible TTS playback pipeline.

  Shallow embedding of:
  - ollama_api.py        : sentence_buffer (the sentence segmenter)
  - tts8/tts10.py        : SingleTtsManager.tts_worker / _cancel_current_context
  - tts12.py             : TenTtsManager.tts_worker / interrupt_and_speak /
                           _cancel_and_clear / _immediate_refresh
  - src/cartesia/tts/_websocket.py : _TTSContext.send receive loops,
                           TtsWebsocket.send / _websocket_generator

  Python strings are modeled as List Char; audio byte payloads as Nat or
  List Nat; context identifiers as Nat or String where indicated.
-/
import Mathlib

set_option maxRecDepth 8000

namespace TtsPipeline

/-! ### Sentence segmenter (ollama_api.py, sentence_buffer)

The Python generator accumulates fragments in a buffer and yields it at
boundary punctuation.  The input is an iterator shared with the decimal
look-ahead, so a fragment pulled by the look-ahead is consumed. -/

/-- Python str.isdigit for a single character (ASCII digits; the source only
feeds ASCII text). -/
def pyIsdigitChar (c : Char) : Bool := c.isDigit

/-- Python str.isdigit on a string: true iff nonempty and all characters are
digits. -/
def pyIsdigitStr (s : List Char) : Bool := !s.isEmpty && s.all pyIsdigitChar

/-- Python str.strip: remove leading and trailing whitespace. -/
def pyStrip (s : List Char) : List Char :=
  ((s.dropWhile Char.isWhitespace).reverse.dropWhile Char.isWhitespace).reverse

/-- Python s.replace of the dot by the empty string: removes every dot. -/
def pyRemoveDots (s : List Char) : List Char := s.filter (fun c => c ≠ '.')

/-- Python s[-n:]: the last n characters (the whole string when shorter). -/
def lastSlice (s : List Char) (n : Nat) : List Char := s.drop (s.length - n)

/-- Python buffer[-1] (only used under a nonemptiness guard). -/
def lastChar (s : List Char) : Char := s.getLastD ' '

/-- Python buffer[-2] (only used under a length guard). -/
def sndLastChar (s : List Char) : Char := s.getD (s.length - 2) ' '

/-- valid_split_chars in sentence_buffer: ".?!," while first_chunk is set and
".?!" afterwards. -/
def validSplitChars (firstChunk : Bool) : List Char :=
  if firstChunk then ['.', '?', '!', ','] else ['.', '?', '!']

/-- First decimal guard of sentence_buffer (the two nested conditionals of
lines 29-33 of ollama_api.py, flattened into one conjunction): when it holds
the loop continues without yielding.  The short-circuit on len(buffer) == 2
is preserved by the Boolean or. -/
def decimalContinue (b : List Char) : Bool :=
  lastChar b = '.' && 2 ≤ b.length && pyIsdigitChar (sndLastChar b) &&
    (b.length = 2 || !pyIsdigitStr (pyRemoveDots (pyStrip (lastSlice b 3))))

/-- Second decimal guard (lines 36-40): tested only when the first guard did
not fire; its body pulls one extra fragment from the shared input iterator as
a look-ahead. -/
def decimalLookahead (b : List Char) : Bool :=
  lastChar b = '.' && 2 ≤ b.length && pyIsdigitChar (sndLastChar b)

/-- Loop body of sentence_buffer over the remaining fragment list, the
accumulation buffer (buf ++ f is Python's buffer += each), and the
first_chunk flag.  The look-ahead next((c for c in input), "") consumes the
next fragment off the shared iterator whether or not it is all digits; when
the iterator is exhausted it returns the empty string, whose isdigit() is
false, so the buffer is yielded and the generator finishes with an empty
buffer. -/
def sbLoop : List (List Char) → List Char → Bool → List (List Char)
  | [], buf, _ => if buf.isEmpty then [] else [buf]
  | f :: rest, buf, firstChunk =>
    if (buf ++ f).isEmpty then sbLoop rest (buf ++ f) firstChunk
    else if !(validSplitChars firstChunk).contains (lastChar (buf ++ f)) then
      sbLoop rest (buf ++ f) firstChunk
    else if decimalContinue (buf ++ f) then sbLoop rest (buf ++ f) firstChunk
    else if decimalLookahead (buf ++ f) then
      match rest with
      | [] => [buf ++ f]
      | g :: rest2 =>
        if pyIsdigitStr g then sbLoop rest2 (buf ++ f) firstChunk
        else (buf ++ f) :: sbLoop rest2 [] false
    else (buf ++ f) :: sbLoop rest [] false

/-- sentence_buffer: consume the fragment sequence, yield speakable units. -/
def sentence_buffer (frags : List (List Char)) : List (List Char) :=
  sbLoop frags [] true

/-- Feed a string one character per fragment (finest granularity; the spec's
data model allows fragments down to one character). -/
def charFrags (s : String) : List (List Char) := s.data.map (fun c => [c])

/-- A unit ends at sentence punctuation. -/
def endsSentence (u : List Char) : Bool := ['.', '?', '!'].contains (lastChar u)

/-! ### Playback worker
(tts8/tts10.py SingleTtsManager.tts_worker with _cancel_current_context, and
the identically structured per-chunk body of tts12.py TenTtsManager.tts_worker)

The worker thread is modeled as a state machine consuming an event trace.
A frame event is the atomic per-chunk loop body: the cancellation test on
the local canceled set, then the initial-frame buffering or the immediate
write.  A cancel event is _cancel_current_context adding the context id to
the local canceled set and removing it from the connection's local registry;
no cancel message is sent to the server, so the backend keeps streaming.
Each frame carries the context_id of the chunk itself, as delivered by
ws.send: the generator behind it (_websocket_generator below) yields every
chunk on the shared socket without context filtering, so a chunk of an
earlier context can be delivered into a loop started for a later one.  The
loop body never examines chunk.context_id: its cancellation test uses only
the loop's own local_context_id.  Writes record (local_context_id of the
writing loop, context_id the chunk belongs to, audio). -/

/-- min_initial_frames of SingleTtsManager.tts_worker (tts10.py line 138). -/
def min_initial_frames_single : Nat := 2

/-- min_initial_frames of TenTtsManager.tts_worker (tts12.py line 256). -/
def min_initial_frames_ten : Nat := 3

inductive PlayEvent where
  /-- The worker begins the ws.send chunk loop for a context. -/
  | startStream (ctx : Nat)
  /-- The loop's generator yields a chunk whose own context_id is ctx and the
  loop body runs.  The generator does no context filtering, so ctx need not
  equal the context the loop was started for. -/
  | frame (ctx : Nat) (audio : Nat)
  /-- Model of _cancel_current_context: the context id joins the local canceled set. -/
  | cancel (ctx : Nat)
  /-- The chunk generator is exhausted; the loop's locals are discarded. -/
  | endStream
deriving DecidableEq

structure PlayState where
  /-- canceled_contexts (only ever grows). -/
  canceled : List Nat
  /-- local_context_id of the stream loop the worker is currently running. -/
  cur : Option Nat
  /-- initial_frames entries: (local_context_id of the buffering loop,
  context_id of the chunk, audio). -/
  initialFrames : List (Nat × Nat × Nat)
  /-- collected_enough. -/
  collectedEnough : Bool
  /-- Everything written to the output device, in order: (local_context_id of
  the writing loop, context_id the chunk belongs to, audio). -/
  writes : List (Nat × Nat × Nat)
deriving DecidableEq

def initialPlayState : PlayState :=
  { canceled := [], cur := none, initialFrames := [], collectedEnough := false, writes := [] }

/-- One scheduler step.  The frame case is the chunk-loop body of tts_worker:
break when the loop's own local_context_id is in the canceled set (dropping
the loop's locals); otherwise buffer the chunk into initial_frames until
min_initial_frames is reached, flush them as one contiguous write when it is,
and write immediately afterwards.  The test never looks at chunk.context_id,
only at the loop's local_context_id, and nothing flushes the buffered frames
when the stream ends early. -/
def playStep (k : Nat) (s : PlayState) : PlayEvent → PlayState
  | .startStream c =>
    { s with cur := some c, initialFrames := [], collectedEnough := false }
  | .cancel c => { s with canceled := c :: s.canceled }
  | .endStream => { s with cur := none, initialFrames := [] }
  | .frame ctx a =>
    match s.cur with
    | none => s
    | some c =>
      if s.canceled.contains c then { s with cur := none, initialFrames := [] }
      else if !s.collectedEnough then
        if k ≤ (s.initialFrames ++ [(c, ctx, a)]).length then
          { s with initialFrames := s.initialFrames ++ [(c, ctx, a)],
                   collectedEnough := true,
                   writes := s.writes ++ (s.initialFrames ++ [(c, ctx, a)]) }
        else { s with initialFrames := s.initialFrames ++ [(c, ctx, a)] }
      else { s with writes := s.writes ++ [(c, ctx, a)] }

def playRun (k : Nat) (evs : List PlayEvent) : PlayState :=
  evs.foldl (playStep k) initialPlayState

/-! ### Connection pool barge-in (tts12.py TenTtsManager.interrupt_and_speak,
_cancel_and_clear, _immediate_refresh, _is_conn_ready)

Connections are the indices 0..9 of conn_labels.  Readiness can change
between retry cycles (the housekeeper refreshes in the background), so the
combined _is_conn_ready test is a function of the retry cycle and the
connection index.  time.sleep(0.3) between cycles is modeled by moving to
the next cycle index. -/

structure PoolState where
  /-- active_conn_index. -/
  activeIdx : Nat
  /-- is_speaking_flags(label).is_set(). -/
  isSpeaking : Nat → Bool
  /-- refresh_in_progress_flags(label). -/
  refreshInProgress : Nat → Bool
  /-- pause_events(label).is_set(). -/
  pauseSet : Nat → Bool

/-- candidate_indices = ((active_conn_index + i) mod 10 for i in range(1, 11)). -/
def candidateIndices (active : Nat) : List Nat :=
  (List.range 10).map (fun i => (active + (i + 1)) % 10)

/-- The scanning loop of interrupt_and_speak: up to cyclesLeft passes over the
candidates; connReady t i is _is_conn_ready(conn_labels[i]) as observed during
pass t.  Returns the first ready index found, or none after the passes are
exhausted. -/
def scanCycles (connReady : Nat → Nat → Bool) (cands : List Nat) :
    Nat → Nat → Option Nat
  | 0, _ => none
  | cyclesLeft + 1, t =>
    match cands.find? (connReady t) with
    | some i => some i
    | none => scanCycles connReady cands cyclesLeft (t + 1)

/-- Model of _immediate_refresh(label): spawns a refresh thread only when the label is
not the active index and the connection is idle.  The Boolean is whether a
refresh thread is spawned. -/
def immediateRefreshSpawns (s : PoolState) (label : Nat) : Bool :=
  if label = s.activeIdx then false
  else !s.isSpeaking label && !s.refreshInProgress label && !s.pauseSet label

/-- Result of one interrupt_and_speak call. -/
structure InterruptResult where
  /-- active_conn_index after the call. -/
  newActiveIdx : Nat
  /-- The connection whose text queue receives the new text. -/
  enqueuedTo : Nat
  /-- The enqueued queue item (text, "new_context" marker). -/
  enqueuedText : List Char
  newContextMarker : Bool
  /-- Whether _immediate_refresh spawned a refresh of the vacated (old active)
  connection during the call. -/
  refreshSpawnedForOld : Bool
deriving DecidableEq

/-- TenTtsManager.interrupt_and_speak: cancel and clear the old active
connection (which ends by calling _immediate_refresh on it, while
active_conn_index still points at it), then scan up to 10 cycles for a ready
candidate, falling back to the old connection when none is found, and finally
enqueue (text, "new_context") on the chosen connection. -/
def interrupt_and_speak (connReady : Nat → Nat → Bool) (s : PoolState)
    (text : List Char) : InterruptResult :=
  let oldIdx := s.activeIdx
  let refreshSpawned := immediateRefreshSpawns s oldIdx
  match scanCycles connReady (candidateIndices oldIdx) 10 0 with
  | some idx =>
    { newActiveIdx := idx, enqueuedTo := idx, enqueuedText := text,
      newContextMarker := true, refreshSpawnedForOld := refreshSpawned }
  | none =>
    { newActiveIdx := oldIdx, enqueuedTo := oldIdx, enqueuedText := text,
      newContextMarker := true, refreshSpawnedForOld := refreshSpawned }

/-! ### WebSocket client (src/cartesia/tts/_websocket.py)

Server messages are the tagged variants of WebSocketResponse.  base64
decoding of the chunk payload is modeled as the identity on the abstract
byte list. -/

inductive WsMessage where
  | chunk (context_id : String) (data : List Nat)
  | timestamps (context_id : String) (ts : Nat)
  | done (context_id : String)
  | error (context_id : String) (err : String)
deriving DecidableEq

def WsMessage.contextId : WsMessage → String
  | .chunk c _ => c
  | .timestamps c _ => c
  | .done c => c
  | .error c _ => c

def WsMessage.isDone : WsMessage → Bool
  | .done _ => true
  | _ => false

def WsMessage.isError : WsMessage → Bool
  | .error _ _ => true
  | _ => false

/-- WebSocketTtsOutput as produced by _convert_response with
include_context_id = True and include_flush_id = False. -/
structure WsOutput where
  audio : Option (List Nat)
  wordTimestamps : Option Nat
  contextId : Option String
deriving DecidableEq

/-- Model of _convert_response on the non-terminal variants. -/
def convertResponse : WsMessage → WsOutput
  | .chunk c d => { audio := some d, wordTimestamps := none, contextId := some c }
  | .timestamps c t => { audio := none, wordTimestamps := some t, contextId := some c }
  | .done c => { audio := none, wordTimestamps := none, contextId := some c }
  | .error c _ => { audio := none, wordTimestamps := none, contextId := some c }

/-- What one receive of _TTSContext.send does with a message. -/
inductive RecvAction where
  | yielded (out : WsOutput)
  | stop
  | fail (err : String)
  | discard
deriving DecidableEq

/-- First receive attempt of each pass of the _TTSContext.send outer loop
(lines 102-130 of _websocket.py).  The context_id mismatch test there is the
statement "pass", which has no effect, so processing continues on every
message: an error raises, a done breaks, and a chunk or timestamps message is
converted and yielded regardless of its context_id. -/
def contextRecvFirst (selfCtx : String) (m : WsMessage) : RecvAction :=
  let _ := m.contextId ≠ selfCtx
  match m with
  | .error _ e => .fail ("Error generating audio:\n" ++ e)
  | .done _ => .stop
  | .chunk c d => .yielded (convertResponse (.chunk c d))
  | .timestamps c t => .yielded (convertResponse (.timestamps c t))

/-- Receive step of the inner wait-for-next-text loop (lines 132-166) and of
the final drain loop (lines 172-190): a message whose context_id differs from
the context's own id is discarded with "continue" before any other
processing. -/
def contextRecvDrain (selfCtx : String) (m : WsMessage) : RecvAction :=
  if m.contextId ≠ selfCtx then .discard
  else
    match m with
    | .error _ e => .fail ("Error generating audio:\n" ++ e)
    | .done _ => .stop
    | .chunk c d => .yielded (convertResponse (.chunk c d))
    | .timestamps c t => .yielded (convertResponse (.timestamps c t))

/-- TtsWebsocket._websocket_generator: send the request, then yield every
converted message until the first done, raising on an error message.  There
is no context_id filtering.  Exhaustion of the message list models a socket
with no further traffic. -/
def websocket_generator : List WsMessage → Except String (List WsOutput)
  | [] => .ok []
  | m :: rest =>
    match m with
    | .error _ e => .error ("Error generating audio:\n" ++ e)
    | .done _ => .ok []
    | other =>
      match websocket_generator rest with
      | .ok outs => .ok (convertResponse other :: outs)
      | .error e => .error e

/-- TtsWebsocket.send with stream = False and add_timestamps unset: drain the
generator, collect the audio field of every chunk that has one, and join the
byte strings, returning one WebSocketTtsOutput with the request's
context_id. -/
def ttsSendNoStream (msgs : List WsMessage) (ctxId : String) :
    Except String WsOutput :=
  match websocket_generator msgs with
  | .error e => .error e
  | .ok outs =>
    .ok { audio := some (outs.filterMap (fun o => o.audio)).flatten,
          wordTimestamps := none, contextId := some ctxId }

/-- Modelled from the spec: the audio bytes of exactly the chunks that the
stream = True call yields before the first done message, concatenated in
arrival order.  This is the comparator for the refinement claim about
TtsWebsocket.send, written from the claim's words rather than from the
code. -/
def streamAudioBeforeDone (msgs : List WsMessage) : List Nat :=
  ((msgs.takeWhile (fun m => !m.isDone)).filterMap
    (fun m => match m with | .chunk _ d => some d | _ => none)).flatten

/-- No error message is delivered before the first done message. -/
def noErrorBeforeDone (msgs : List WsMessage) : Bool :=
  (msgs.takeWhile (fun m => !m.isDone)).all (fun m => !m.isError)

/-! ### Segmenter lemmas -/

/-- Once first_chunk is false every unit the loop yields at a boundary ends in
sentence punctuation; only the final flushed unit may end otherwise. -/
theorem sbLoop_units_false (n : Nat) :
    ∀ fs buf, fs.length ≤ n → ∀ u ∈ (sbLoop fs buf false).dropLast, endsSentence u = true := by
  induction n with
  | zero =>
    intro fs buf hle u hu
    have hfs : fs = [] := List.length_eq_zero.mp (Nat.le_zero.mp hle)
    subst hfs
    unfold sbLoop at hu
    split at hu <;> simp at hu
  | succ n ih =>
    intro fs buf hle u hu
    cases fs with
    | nil =>
      unfold sbLoop at hu
      split at hu <;> simp at hu
    | cons f rest =>
      have hrest : rest.length ≤ n := by simpa using Nat.le_of_succ_le_succ hle
      cases rest with
      | nil =>
        unfold sbLoop at hu
        split at hu
        · exact ih [] _ (Nat.zero_le n) u hu
        · split at hu
          · exact ih [] _ (Nat.zero_le n) u hu
          · split at hu
            · exact ih [] _ (Nat.zero_le n) u hu
            · split at hu
              · simp at hu
              · have h0 : sbLoop [] ([] : List Char) false = [] := by unfold sbLoop; simp
                rw [h0] at hu
                simp at hu
      | cons g rest2 =>
        have hrest2 : rest2.length ≤ n := by
          simp at hrest; omega
        unfold sbLoop at hu
        split at hu
        · exact ih (g :: rest2) _ hrest u hu
        · split at hu
          · exact ih (g :: rest2) _ hrest u hu
          · split at hu
            · exact ih (g :: rest2) _ hrest u hu
            · split at hu
              · split at hu
                · simp at hu
                · rename_i g2 rest3 heq
                  cases heq
                  split at hu
                  · exact ih rest2 _ hrest2 u hu
                  · rcases hr : sbLoop rest2 [] false with _ | ⟨x, xs⟩
                    · rw [hr] at hu; simp at hu
                    · rw [hr, List.dropLast_cons₂] at hu
                      rcases List.mem_cons.mp hu with rfl | hu2
                      · have hv : (validSplitChars false).contains (lastChar (buf ++ f)) = true := by
                          simp_all
                        simpa [endsSentence, validSplitChars] using hv
                      · have htail := ih rest2 [] hrest2 u
                        rw [hr] at htail
                        exact htail hu2
              · rcases hr : sbLoop (g :: rest2) [] false with _ | ⟨x, xs⟩
                · rw [hr] at hu; simp at hu
                · rw [hr, List.dropLast_cons₂] at hu
                  rcases List.mem_cons.mp hu with rfl | hu2
                  · have hv : (validSplitChars false).contains (lastChar (buf ++ f)) = true := by
                      simp_all
                    simpa [endsSentence, validSplitChars] using hv
                  · have htail := ih (g :: rest2) [] hrest u
                    rw [hr] at htail
                    exact htail hu2

theorem sbLoop_false_dropLast (fs : List (List Char)) (buf : List Char) :
    ∀ u ∈ (sbLoop fs buf false).dropLast, endsSentence u = true :=
  sbLoop_units_false fs.length fs buf le_rfl

/-- Every unit after the first one, except possibly the final flushed one,
ends in sentence punctuation, for any starting buffer and first_chunk
flag. -/
theorem sbLoop_units_mid (n : Nat) :
    ∀ fs buf fc, fs.length ≤ n →
      ∀ u ∈ ((sbLoop fs buf fc).dropLast).drop 1, endsSentence u = true := by
  induction n with
  | zero =>
    intro fs buf fc hle u hu
    have hfs : fs = [] := List.length_eq_zero.mp (Nat.le_zero.mp hle)
    subst hfs
    unfold sbLoop at hu
    split at hu <;> simp at hu
  | succ n ih =>
    intro fs buf fc hle u hu
    cases fs with
    | nil =>
      unfold sbLoop at hu
      split at hu <;> simp at hu
    | cons f rest =>
      have hrest : rest.length ≤ n := by simpa using Nat.le_of_succ_le_succ hle
      cases rest with
      | nil =>
        unfold sbLoop at hu
        split at hu
        · exact ih [] _ fc (Nat.zero_le n) u hu
        · split at hu
          · exact ih [] _ fc (Nat.zero_le n) u hu
          · split at hu
            · exact ih [] _ fc (Nat.zero_le n) u hu
            · split at hu
              · simp at hu
              · have h0 : sbLoop [] ([] : List Char) false = [] := by unfold sbLoop; simp
                rw [h0] at hu
                simp at hu
      | cons g rest2 =>
        have hrest2 : rest2.length ≤ n := by
          simp at hrest; omega
        unfold sbLoop at hu
        split at hu
        · exact ih (g :: rest2) _ fc hrest u hu
        · split at hu
          · exact ih (g :: rest2) _ fc hrest u hu
          · split at hu
            · exact ih (g :: rest2) _ fc hrest u hu
            · split at hu
              · split at hu
                · simp at hu
                · rename_i g2 rest3 heq
                  cases heq
                  split at hu
                  · exact ih rest2 _ fc hrest2 u hu
                  · rcases hr : sbLoop rest2 [] false with _ | ⟨x, xs⟩
                    · rw [hr] at hu; simp at hu
                    · rw [hr, List.dropLast_cons₂, List.drop_one, List.tail_cons] at hu
                      have htail := sbLoop_false_dropLast rest2 [] u
                      rw [hr] at htail
                      exact htail hu
              · rcases hr : sbLoop (g :: rest2) [] false with _ | ⟨x, xs⟩
                · rw [hr] at hu; simp at hu
                · rw [hr, List.dropLast_cons₂, List.drop_one, List.tail_cons] at hu
                  have htail := sbLoop_false_dropLast (g :: rest2) [] u
                  rw [hr] at htail
                  exact htail hu

/-! ### Claim theorems: segmenter -/

/-- C2: the segmenter is claimed lossless for every fragment granularity, but
feeding "33.14" one character at a time makes the decimal look-ahead consume
and silently drop the fragment "1" from the shared iterator: the emitted
units concatenate to "33.4", not to the input. -/
theorem sentence_buffer_lookahead_drops_fragment :
    sentence_buffer (charFrags "33.14") = [String.data "33.4"] ∧
      (sentence_buffer (charFrags "33.14")).flatten ≠ (charFrags "33.14").flatten := by
  decide

/-- C4: splitting the input " 3.5 yz." into the fragments " 3." / "5 y" / "z."
makes the segmenter emit the unit " 3." (the look-ahead fragment "5 y" is not
all digits, so the buffer is yielded and that fragment is dropped): the unit
boundary falls right after the dot of the digit-dot-digit run "3.5", whose
surrounding characters are exhibited in the conjuncts. -/
theorem sentence_buffer_boundary_inside_decimal :
    sentence_buffer [String.data " 3.", String.data "5 y", String.data "z."] =
      [String.data " 3.", String.data "z."] ∧
      [String.data " 3.", String.data "5 y", String.data "z."].flatten =
        String.data " 3.5 yz." ∧
      lastChar (String.data " 3.") = '.' ∧
      pyIsdigitChar (sndLastChar (String.data " 3.")) = true ∧
      (String.data "5 y").headD ' ' = '5' ∧
      pyIsdigitChar '5' = true := by
  decide

/-- C5: segmenting "Hi, how are you? I am 3.5 years old." character by
character does not produce the three claimed units: the look-ahead drops the
"5" of "3.5", the third unit is " I am 3. years old.", and concatenating the
units no longer reproduces the source string. -/
theorem sentence_buffer_hi_scenario :
    sentence_buffer (charFrags "Hi, how are you? I am 3.5 years old.") =
      [String.data "Hi,", String.data " how are you?",
        String.data " I am 3. years old."] ∧
      (sentence_buffer (charFrags "Hi, how are you? I am 3.5 years old.")).flatten ≠
        String.data "Hi, how are you? I am 3.5 years old." := by
  decide

/-- C8: for every fragment sequence, every emitted unit other than the first
one and the final one (the only unit that can come from the end-of-stream
flush) ends with a sentence boundary character, so only the first unit can
end with a comma apart from the final flushed unit. -/
theorem sentence_buffer_later_units_end_sentence (fs : List (List Char))
    (u : List Char) (hu : u ∈ ((sentence_buffer fs).dropLast).drop 1) :
    endsSentence u = true := by
  have hu2 : u ∈ ((sbLoop fs [] true).dropLast).drop 1 := hu
  exact sbLoop_units_mid fs.length fs [] true le_rfl u hu2

/-- Witness for C8 at the fragment sequence of "a, b. c. d" fed character by
character, whose units are "a," / " b." / " c." / " d". -/
theorem sentence_buffer_later_units_end_sentence_witness :
    (String.data " b.") ∈ ((sentence_buffer (charFrags "a, b. c. d")).dropLast).drop 1 ∧
      endsSentence (String.data " b.") = true :=
  ⟨by decide,
    sentence_buffer_later_units_end_sentence (charFrags "a, b. c. d")
      (String.data " b.") (by decide)⟩

/-! ### Playback lemmas -/

/-- The canceled set only grows. -/
theorem playStep_canceled_mono (k : Nat) (s : PlayState) (e : PlayEvent) (c : Nat)
    (hc : c ∈ s.canceled) : c ∈ (playStep k s e).canceled := by
  cases e with
  | startStream c2 => simpa [playStep] using hc
  | cancel c2 =>
    simp only [playStep, List.mem_cons]
    exact Or.inr hc
  | endStream => simpa [playStep] using hc
  | frame ctx a =>
    cases hcur : s.cur with
    | none => simpa [playStep, hcur] using hc
    | some c2 =>
      simp only [playStep, hcur]
      split_ifs <;> simpa using hc

/-- Every buffered initial frame belongs to the stream the worker is
currently consuming. -/
theorem playStep_initInv (k : Nat) (s : PlayState) (e : PlayEvent)
    (hI : ∀ p ∈ s.initialFrames, s.cur = some p.1) :
    ∀ p ∈ (playStep k s e).initialFrames, (playStep k s e).cur = some p.1 := by
  cases e with
  | startStream c2 => intro p hp; simp [playStep] at hp
  | cancel c2 =>
    intro p hp
    simp only [playStep] at hp ⊢
    exact hI p hp
  | endStream => intro p hp; simp [playStep] at hp
  | frame ctx a =>
    cases hcur : s.cur with
    | none =>
      intro p hp
      simp only [playStep, hcur] at hp ⊢
      have h := hI p hp
      rwa [hcur] at h
    | some c2 =>
      simp only [playStep, hcur]
      split_ifs with h1 h2 h3
      · intro p hp; simp at hp
      · intro p hp
        simp only [List.mem_append, List.mem_singleton] at hp
        rcases hp with hp | rfl
        · have h := hI p hp
          rwa [hcur] at h
        · rfl
      · intro p hp
        simp only [List.mem_append, List.mem_singleton] at hp
        rcases hp with hp | rfl
        · have h := hI p hp
          rwa [hcur] at h
        · rfl
      · intro p hp
        have h := hI p hp
        rwa [hcur] at h

/-- Once a context is in the canceled set, a step can only add writes made
by loops serving other contexts. -/
theorem playStep_writes_safe (k : Nat) (s : PlayState) (e : PlayEvent) (c : Nat)
    (hc : c ∈ s.canceled) (hI : ∀ p ∈ s.initialFrames, s.cur = some p.1) :
    ∀ w ∈ (playStep k s e).writes, w ∈ s.writes ∨ w.1 ≠ c := by
  cases e with
  | startStream c2 => intro w hw; exact Or.inl (by simpa [playStep] using hw)
  | cancel c2 => intro w hw; exact Or.inl (by simpa [playStep] using hw)
  | endStream => intro w hw; exact Or.inl (by simpa [playStep] using hw)
  | frame ctx a =>
    cases hcur : s.cur with
    | none => intro w hw; exact Or.inl (by simpa [playStep, hcur] using hw)
    | some c2 =>
      simp only [playStep, hcur]
      split_ifs with h1 h2 h3
      · intro w hw; exact Or.inl hw
      · have hne : c2 ≠ c := fun h => h1 (List.elem_eq_true_of_mem (h ▸ hc))
        intro w hw
        simp only [List.mem_append, List.mem_singleton] at hw
        rcases hw with hw | hw
        · exact Or.inl hw
        · rcases hw with hw | rfl
          · have h := hI w hw
            rw [hcur] at h
            exact Or.inr (by rw [← Option.some_inj.mp h]; exact hne)
          · exact Or.inr hne
      · intro w hw; exact Or.inl hw
      · have hne : c2 ≠ c := fun h => h1 (List.elem_eq_true_of_mem (h ▸ hc))
        intro w hw
        simp only [List.mem_append, List.mem_singleton] at hw
        rcases hw with hw | rfl
        · exact Or.inl hw
        · exact Or.inr hne

/-- Folding a trace from a state where c is canceled adds no writes by a
loop whose local context is c. -/
theorem playFold_writes_safe (k c : Nat) :
    ∀ (evs : List PlayEvent) (s : PlayState), c ∈ s.canceled →
      (∀ p ∈ s.initialFrames, s.cur = some p.1) →
      ∀ w ∈ (List.foldl (playStep k) s evs).writes, w ∈ s.writes ∨ w.1 ≠ c := by
  intro evs
  induction evs with
  | nil => intro s hc hI w hw; exact Or.inl hw
  | cons e evs ih =>
    intro s hc hI w hw
    simp only [List.foldl_cons] at hw
    rcases ih (playStep k s e) (playStep_canceled_mono k s e c hc)
        (playStep_initInv k s e hI) w hw with h | h
    · exact playStep_writes_safe k s e c hc hI w h
    · exact Or.inr h

theorem playFold_initInv (k : Nat) :
    ∀ (evs : List PlayEvent) (s : PlayState),
      (∀ p ∈ s.initialFrames, s.cur = some p.1) →
      ∀ p ∈ (List.foldl (playStep k) s evs).initialFrames,
        (List.foldl (playStep k) s evs).cur = some p.1 := by
  intro evs
  induction evs with
  | nil => intro s hI; exact hI
  | cons e evs ih =>
    intro s hI
    simp only [List.foldl_cons]
    exact ih (playStep k s e) (playStep_initInv k s e hI)

theorem playRun_initInv (k : Nat) (evs : List PlayEvent) :
    ∀ p ∈ (playRun k evs).initialFrames, (playRun k evs).cur = some p.1 :=
  playFold_initInv k evs initialPlayState (by intro p hp; simp [initialPlayState] at hp)

/-! ### Claim theorems: playback under cancellation -/

/-- C1 counterexample: _cancel_current_context only deregisters the context
locally and sends no cancel message to the server, and the generator behind
ws.send (websocket_generator below) yields every chunk on the shared socket
with no context filtering - the first conjunct shows the next send's
generator delivering the leftover chunk of context 1 unfiltered.  That chunk,
processed inside the loop started for context 2, passes the per-frame check,
which tests only the loop's local_context_id against the canceled set, and
its audio is written: the write (2, 1, 12) belongs to the canceled context 1
and appears only after the cancel event, refuting the claim that zero frames
of the previously active context ever reach the output device. -/
theorem stale_frame_of_canceled_context_written :
    websocket_generator
        [WsMessage.chunk "ctx-1" [12], WsMessage.chunk "ctx-2" [13],
          WsMessage.done "ctx-2"] =
      .ok [convertResponse (WsMessage.chunk "ctx-1" [12]),
        convertResponse (WsMessage.chunk "ctx-2" [13])] ∧
    (playRun min_initial_frames_single
        [PlayEvent.startStream 1, PlayEvent.frame 1 10, PlayEvent.frame 1 11,
          PlayEvent.cancel 1, PlayEvent.startStream 2, PlayEvent.frame 1 12,
          PlayEvent.frame 2 13]).writes =
      [(1, 1, 10), (1, 1, 11), (2, 1, 12), (2, 2, 13)] ∧
    (playRun min_initial_frames_single
        [PlayEvent.startStream 1, PlayEvent.frame 1 10, PlayEvent.frame 1 11,
          PlayEvent.cancel 1]).writes = [(1, 1, 10), (1, 1, 11)] ∧
    ((2 : Nat), (1 : Nat), (12 : Nat)) ∉
      [((1 : Nat), (1 : Nat), (10 : Nat)), (1, 1, 11)] := by
  refine ⟨rfl, by decide, by decide, by decide⟩

/-- C1 (amended): the per-frame check protects the loop that was serving the
canceled context: for every event trace, any write performed by a loop whose
local_context_id is the canceled context c already existed before the cancel
event, so that loop writes nothing - buffered or fresh - from the cancel
onward.  Frames of c delivered by the unfiltered generator into a loop for a
different context can still be written, as the counterexample shows. -/
theorem canceled_loop_writes_nothing_after_cancel (k : Nat)
    (pre post : List PlayEvent) (c : Nat) (w : Nat × Nat × Nat)
    (hw : w ∈ (playRun k (pre ++ PlayEvent.cancel c :: post)).writes)
    (hctx : w.1 = c) :
    w ∈ (playRun k (pre ++ [PlayEvent.cancel c])).writes := by
  have hsplit : pre ++ PlayEvent.cancel c :: post =
      (pre ++ [PlayEvent.cancel c]) ++ post := by simp
  rw [hsplit] at hw
  have hrun : playRun k ((pre ++ [PlayEvent.cancel c]) ++ post) =
      List.foldl (playStep k) (playRun k (pre ++ [PlayEvent.cancel c])) post := by
    simp [playRun, List.foldl_append]
  rw [hrun] at hw
  have hc1 : c ∈ (playRun k (pre ++ [PlayEvent.cancel c])).canceled := by
    have heq : playRun k (pre ++ [PlayEvent.cancel c]) =
        playStep k (playRun k pre) (PlayEvent.cancel c) := by
      simp [playRun, List.foldl_append]
    rw [heq]
    simp [playStep]
  rcases playFold_writes_safe k c post (playRun k (pre ++ [PlayEvent.cancel c]))
      hc1 (playRun_initInv k _) w hw with h | h
  · exact h
  · exact absurd hctx h

/-- Witness for the amended C1: two frames of context 1 are flushed before
the cancel; the frame reaching that same loop after the cancel is dropped,
and the theorem places the surviving write (1, 1, 10) before the cancel. -/
theorem canceled_loop_writes_nothing_after_cancel_witness :
    ((1 : Nat), (1 : Nat), (10 : Nat)) ∈
      (playRun 2 ([PlayEvent.startStream 1, PlayEvent.frame 1 10,
        PlayEvent.frame 1 11] ++ [PlayEvent.cancel 1])).writes :=
  canceled_loop_writes_nothing_after_cancel 2
    [PlayEvent.startStream 1, PlayEvent.frame 1 10, PlayEvent.frame 1 11]
    [PlayEvent.frame 1 12] 1 (1, 1, 10) (by decide) (by decide)

/-! ### Claim theorems: uninterrupted playback -/

/-- C3 counterexample: with tts12's min_initial_frames = 3, a context that
completes after delivering a single frame has nothing written to the output
device: the buffered initial frames are never flushed at stream end, so the
claimed write of the received frame does not happen. -/
theorem short_stream_never_flushed :
    (playRun min_initial_frames_ten
      [PlayEvent.startStream 7, PlayEvent.frame 7 5, PlayEvent.endStream]).writes = [] ∧
      (playRun min_initial_frames_ten
        [PlayEvent.startStream 7, PlayEvent.frame 7 5, PlayEvent.endStream]).writes ≠
        [(7, 7, 5)] := by
  decide

/-- Once collected_enough is set every further frame is written immediately,
in arrival order. -/
theorem playFold_collected (k c : Nat) :
    ∀ (as : List Nat) (init : List (Nat × Nat × Nat)) (w : List (Nat × Nat × Nat)),
      (List.foldl (playStep k)
        { canceled := [], cur := some c, initialFrames := init,
          collectedEnough := true, writes := w }
        (as.map (PlayEvent.frame c))).writes = w ++ as.map (fun a => (c, c, a)) := by
  intro as
  induction as with
  | nil => intro init w; simp
  | cons a rest ih =>
    intro init w
    simp only [List.map_cons, List.foldl_cons]
    have hstep : playStep k
        { canceled := [], cur := some c, initialFrames := init,
          collectedEnough := true, writes := w } (PlayEvent.frame c a) =
        { canceled := [], cur := some c, initialFrames := init,
          collectedEnough := true, writes := w ++ [(c, c, a)] } := by
      simp [playStep]
    rw [hstep, ih]
    simp

/-- While fewer than k frames are buffered the writes happen exactly when the
buffer reaches k, carrying the whole buffer, and never otherwise. -/
theorem playFold_buffering (k c : Nat) :
    ∀ (as initA : List Nat) (w : List (Nat × Nat × Nat)),
      initA.length + 1 ≤ k →
      (List.foldl (playStep k)
        { canceled := [], cur := some c,
          initialFrames := initA.map (fun a => (c, c, a)),
          collectedEnough := false, writes := w }
        (as.map (PlayEvent.frame c))).writes =
      w ++ (if k ≤ initA.length + as.length then
        (initA ++ as).map (fun a => (c, c, a)) else []) := by
  intro as
  induction as with
  | nil =>
    intro initA w hlen
    simp only [List.map_nil, List.foldl_nil]
    rw [if_neg (by simp; omega)]
    simp
  | cons a rest ih =>
    intro initA w hlen
    simp only [List.map_cons, List.foldl_cons]
    by_cases hfl : k ≤ initA.length + 1
    · have hstep : playStep k
          { canceled := [], cur := some c,
            initialFrames := initA.map (fun a => (c, c, a)),
            collectedEnough := false, writes := w } (PlayEvent.frame c a) =
          { canceled := [], cur := some c,
            initialFrames := initA.map (fun a => (c, c, a)) ++ [(c, c, a)],
            collectedEnough := true,
            writes := w ++ (initA.map (fun a => (c, c, a)) ++ [(c, c, a)]) } := by
        simp only [playStep]
        rw [if_neg (by simp)]
        rw [if_pos (by simp)]
        rw [if_pos (by simp; omega)]
      rw [hstep, playFold_collected]
      rw [if_pos (by simp; omega)]
      simp
    · have hstep : playStep k
          { canceled := [], cur := some c,
            initialFrames := initA.map (fun a => (c, c, a)),
            collectedEnough := false, writes := w } (PlayEvent.frame c a) =
          { canceled := [], cur := some c,
            initialFrames := (initA ++ [a]).map (fun a => (c, c, a)),
            collectedEnough := false, writes := w } := by
        simp only [playStep]
        rw [if_neg (by simp)]
        rw [if_pos (by simp)]
        rw [if_neg (by simp; omega)]
        simp
      rw [hstep, ih (initA ++ [a]) w (by simp; omega)]
      by_cases hc2 : k ≤ initA.length + (rest.length + 1)
      · rw [if_pos (by simp; omega), if_pos (by simpa using hc2)]
        simp
      · rw [if_neg (by simp; omega), if_neg (by simpa using hc2)]

/-- C3 (amended): a context that completes without interruption, pause or
error and delivers at least min_initial_frames frames has every frame written
in arrival order with none dropped (the first k as one flush, the rest
immediately); a context that ends with fewer than k frames has no frame
written at all, because the code has no end-of-stream flush. -/
theorem uninterrupted_context_writes (k c : Nat) (as : List Nat) :
    (playRun k (PlayEvent.startStream c :: as.map (PlayEvent.frame c) ++
      [PlayEvent.endStream])).writes =
      if k ≤ as.length then as.map (fun a => (c, c, a)) else [] := by
  have hassoc : PlayEvent.startStream c :: as.map (PlayEvent.frame c) ++ [PlayEvent.endStream] =
      (PlayEvent.startStream c :: as.map (PlayEvent.frame c)) ++ [PlayEvent.endStream] := by
    simp
  rw [hassoc]
  unfold playRun
  rw [List.foldl_append]
  have hend : ∀ s : PlayState, (List.foldl (playStep k) s [PlayEvent.endStream]).writes =
      s.writes := by
    intro s
    simp [playStep]
  rw [hend]
  simp only [List.foldl_cons]
  have hstart : playStep k initialPlayState (PlayEvent.startStream c) =
      { canceled := [], cur := some c, initialFrames := [],
        collectedEnough := false, writes := [] } := by
    simp [playStep, initialPlayState]
  rw [hstart]
  rcases Nat.eq_zero_or_pos k with hk | hk
  · subst hk
    cases as with
    | nil => simp
    | cons a rest =>
      simp only [List.map_cons, List.foldl_cons]
      have hstep : playStep 0
          { canceled := [], cur := some c, initialFrames := [],
            collectedEnough := false, writes := [] } (PlayEvent.frame c a) =
          { canceled := [], cur := some c, initialFrames := [(c, c, a)],
            collectedEnough := true, writes := [(c, c, a)] } := by
        simp [playStep]
      rw [hstep, playFold_collected]
      simp
  · have h0 : (List.nil (α := Nat)).map (fun a => (c, c, a)) = [] := by simp
    have := playFold_buffering k c as [] [] (by simp; omega)
    simp only [List.map_nil, List.nil_append, List.length_nil, Nat.zero_add] at this
    rw [this]

/-! ### Claim theorems: barge-in pool scan and refresh -/

/-- If no candidate is ready at any of the scanned cycles the scan returns
none. -/
theorem scanCycles_none (connReady : Nat → Nat → Bool) (cands : List Nat) :
    ∀ (n t0 : Nat), (∀ t, t0 ≤ t → t < t0 + n → ∀ i ∈ cands, connReady t i = false) →
      scanCycles connReady cands n t0 = none := by
  intro n
  induction n with
  | zero => intro t0 _; rfl
  | succ n ih =>
    intro t0 h
    unfold scanCycles
    have hfind : cands.find? (connReady t0) = none :=
      List.find?_eq_none.mpr (fun x hx => by
        simp [h t0 le_rfl (by omega) x hx])
    rw [hfind]
    exact ih (t0 + 1) (fun t h1 h2 => h t (by omega) (by omega))

/-- C7: when no pooled connection reports ready during any of the 10 bounded
retry cycles of interrupt_and_speak, the call falls back to the previously
active connection and still enqueues the new text with the "new_context"
marker; the embedded call is a total function, matching the absence of any
raising statement on this Python path. -/
theorem interrupt_no_ready_falls_back (connReady : Nat → Nat → Bool)
    (s : PoolState) (text : List Char)
    (h : ∀ t < 10, ∀ i ∈ candidateIndices s.activeIdx, connReady t i = false) :
    (interrupt_and_speak connReady s text).newActiveIdx = s.activeIdx ∧
      (interrupt_and_speak connReady s text).enqueuedTo = s.activeIdx ∧
      (interrupt_and_speak connReady s text).enqueuedText = text ∧
      (interrupt_and_speak connReady s text).newContextMarker = true := by
  have hscan : scanCycles connReady (candidateIndices s.activeIdx) 10 0 = none :=
    scanCycles_none connReady (candidateIndices s.activeIdx) 10 0
      (fun t h1 h2 i hi => h t (by omega) i hi)
  simp [interrupt_and_speak, hscan]

/-- Witness for C7: a pool where nothing is ever ready, active index 0. -/
theorem interrupt_no_ready_falls_back_witness :
    (interrupt_and_speak (fun _ _ => false)
      { activeIdx := 0, isSpeaking := fun _ => false,
        refreshInProgress := fun _ => false, pauseSet := fun _ => false }
      (String.data "hi")).newActiveIdx = 0 ∧
    (interrupt_and_speak (fun _ _ => false)
      { activeIdx := 0, isSpeaking := fun _ => false,
        refreshInProgress := fun _ => false, pauseSet := fun _ => false }
      (String.data "hi")).enqueuedTo = 0 ∧
    (interrupt_and_speak (fun _ _ => false)
      { activeIdx := 0, isSpeaking := fun _ => false,
        refreshInProgress := fun _ => false, pauseSet := fun _ => false }
      (String.data "hi")).enqueuedText = String.data "hi" ∧
    (interrupt_and_speak (fun _ _ => false)
      { activeIdx := 0, isSpeaking := fun _ => false,
        refreshInProgress := fun _ => false, pauseSet := fun _ => false }
      (String.data "hi")).newContextMarker = true :=
  interrupt_no_ready_falls_back (fun _ _ => false)
    { activeIdx := 0, isSpeaking := fun _ => false,
      refreshInProgress := fun _ => false, pauseSet := fun _ => false }
    (String.data "hi") (by decide)

/-- C9: no call to interrupt_and_speak ever schedules a refresh of the
vacated connection: _immediate_refresh is reached from _cancel_and_clear
while active_conn_index still points at the old connection, so its guard
label == conn_labels(active_conn_index) always takes the early return and no
refresh thread is spawned, contradicting the claim (the comment in
_cancel_and_clear announces an immediate background refresh). -/
theorem interrupt_never_refreshes_vacated (connReady : Nat → Nat → Bool)
    (s : PoolState) (text : List Char) :
    (interrupt_and_speak connReady s text).refreshSpawnedForOld = false := by
  simp only [interrupt_and_speak]
  cases hscan : scanCycles connReady (candidateIndices s.activeIdx) 10 0 <;>
    simp [hscan, immediateRefreshSpawns]

/-! ### Claim theorems: websocket receive loops and send modes -/

/-- C6: a chunk whose context_id differs from the context's own id is not
discarded by the first receive attempt of _TTSContext.send - the mismatch
test there is the no-op statement "pass", so the foreign chunk is converted
and yielded to the caller - while the same message is discarded by the
wait-for-text and final drain loops, which use "continue". -/
theorem first_recv_yields_mismatched_chunk :
    contextRecvFirst "ctx-a" (WsMessage.chunk "ctx-b" [1, 2]) =
      RecvAction.yielded (convertResponse (WsMessage.chunk "ctx-b" [1, 2])) ∧
      contextRecvDrain "ctx-a" (WsMessage.chunk "ctx-b" [1, 2]) =
        RecvAction.discard := by
  constructor
  · rfl
  · decide

/-- With no error before the first done, the generator succeeds and yields
exactly the converted messages that precede the first done. -/
theorem websocket_generator_ok :
    ∀ (msgs : List WsMessage), noErrorBeforeDone msgs = true →
      websocket_generator msgs =
        .ok ((msgs.takeWhile (fun m => !m.isDone)).map convertResponse) := by
  intro msgs
  induction msgs with
  | nil => intro _; rfl
  | cons m rest ih =>
    intro h
    cases m with
    | done c =>
      simp [websocket_generator, List.takeWhile_cons, WsMessage.isDone]
    | error c e =>
      exfalso
      simp [noErrorBeforeDone, List.takeWhile_cons, WsMessage.isDone,
        WsMessage.isError] at h
    | chunk c d =>
      have hrest : noErrorBeforeDone rest = true := by
        simp only [noErrorBeforeDone, List.takeWhile_cons, WsMessage.isDone,
          WsMessage.isError, Bool.not_false, if_true, List.all_cons,
          Bool.and_eq_true] at h ⊢
        exact h.2
      simp [websocket_generator, ih hrest, List.takeWhile_cons, WsMessage.isDone]
    | timestamps c t =>
      have hrest : noErrorBeforeDone rest = true := by
        simp only [noErrorBeforeDone, List.takeWhile_cons, WsMessage.isDone,
          WsMessage.isError, Bool.not_false, if_true, List.all_cons,
          Bool.and_eq_true] at h ⊢
        exact h.2
      simp [websocket_generator, ih hrest, List.takeWhile_cons, WsMessage.isDone]

/-- C10: when no error message precedes the first done, TtsWebsocket.send
with stream = False returns a single output whose audio is the concatenation,
in arrival order, of the audio of exactly the chunks the stream = True
generator yields before the first done, under the request's context_id. -/
theorem send_nostream_matches_streamed_audio (msgs : List WsMessage)
    (ctxId : String) (h : noErrorBeforeDone msgs = true) :
    ttsSendNoStream msgs ctxId =
      .ok { audio := some (streamAudioBeforeDone msgs),
            wordTimestamps := none, contextId := some ctxId } := by
  have hfn : ((fun o => o.audio) ∘ convertResponse) =
      (fun m => match m with | WsMessage.chunk _ d => some d | _ => none) := by
    funext m
    cases m <;> rfl
  unfold ttsSendNoStream
  rw [websocket_generator_ok msgs h]
  show (Except.ok
      { audio := some ((((msgs.takeWhile (fun m => !m.isDone)).map
            convertResponse).filterMap (fun o => o.audio)).flatten),
        wordTimestamps := none, contextId := some ctxId } : Except String WsOutput) =
    (Except.ok
      { audio := some (streamAudioBeforeDone msgs),
        wordTimestamps := none, contextId := some ctxId } : Except String WsOutput)
  unfold streamAudioBeforeDone
  rw [List.filterMap_map, hfn]

/-- Witness for C10 on a concrete message sequence with an interleaved
timestamps message, a done, and a trailing chunk after the done. -/
theorem send_nostream_matches_streamed_audio_witness :
    noErrorBeforeDone [WsMessage.chunk "c" [1, 2], WsMessage.timestamps "c" 0,
      WsMessage.chunk "c" [3], WsMessage.done "c", WsMessage.chunk "c" [9]] = true ∧
    ttsSendNoStream [WsMessage.chunk "c" [1, 2], WsMessage.timestamps "c" 0,
      WsMessage.chunk "c" [3], WsMessage.done "c", WsMessage.chunk "c" [9]] "c" =
      .ok { audio := some (streamAudioBeforeDone [WsMessage.chunk "c" [1, 2],
              WsMessage.timestamps "c" 0, WsMessage.chunk "c" [3],
              WsMessage.done "c", WsMessage.chunk "c" [9]]),
            wordTimestamps := none, contextId := some "c" } :=
  ⟨by decide,
    send_nostream_matches_streamed_audio
      [WsMessage.chunk "c" [1, 2], WsMessage.timestamps "c" 0,
        WsMessage.chunk "c" [3], WsMessage.done "c", WsMessage.chunk "c" [9]]
      "c" (by decide)⟩

end TtsPipeline
